import Mathlib

/-!
# Verification of the dashboard_app recruiting-metrics engine

Shallow embedding of the aggregation core of `src/app.py` and `src/utils.py`
(a Streamlit recruiting-pipeline dashboard) and proofs about it.

Modelling conventions:
* A pandas `DataFrame` is a `Table`: a list of `Row`s plus booleans recording
  which *optional* columns are present (進捗：応募OK日, 求人：求人ID,
  求職者：面談日, 求職者：担当者, スカウト担当者) and whether the three
  derived `*_parsed` date columns have been added.  The required columns of
  `validate_data` are fields of `Row`.
* A cell of a date-typed column is a `RawCell`, tagged with the outcome the
  pandas parsers have on its text: `null` (NaN), `text s` (non-null text that
  neither the strict format `%Y-%m-%d %H:%M:%S` nor general parsing accepts),
  `strictDate d` (text in the strict format, denoting timestamp `d`), or
  `looseDate d` (text only general parsing accepts).  This models the
  library-call boundary `pd.to_datetime` without re-implementing it.
* A timestamp `Date` carries its calendar year and month (used by the month
  filter via `.dt.year` / `.dt.month`) and an absolute day number `absDay`
  (so that `(a - b).dt.days = a.absDay - b.absDay`).
* Counts are `Nat`, Python floats arising from true division are `ℚ`
  (exact; a rational is by construction never NaN or ±Inf).
* Python exceptions (`KeyError` from a missing column, `ValueError` from
  `month.split('-')` unpacking or `int(...)`) are modelled with `Except PyErr`.
* `calculate_metrics` (app.py) assigns the three `*_parsed` columns directly
  on its argument (app.py lines 146-148, no `.copy()`), mutating the
  caller's frame; it is embedded as returning a pair
  (result, caller-visible table after the call).  `apply_filters` (utils.py)
  copies first (`df = df.copy()`, line 675), so it and everything built on it
  are embedded as pure functions of the input table.
-/

namespace DashApp

/-- A canonical timestamp (the result of a successful date parse).
`year`/`month` model `.dt.year`/`.dt.month`; `absDay` is an absolute day
number modelling subtraction of timestamps (`.dt.days`). -/
structure Date where
  year : Int
  month : Int
  absDay : Int
deriving DecidableEq, Repr

/-- A raw cell of a date-typed CSV column, tagged with the outcome of the
pandas parsers on its text (see the module docstring). -/
inductive RawCell where
  | null : RawCell
  | text (s : String) : RawCell
  | strictDate (d : Date) : RawCell
  | looseDate (d : Date) : RawCell
deriving DecidableEq, Repr

/-- `pd.isna` on a raw cell. -/
def RawCell.isNull : RawCell → Bool
  | .null => true
  | _ => false

/-- The Python comparison `date_str == ""` (app.py line 129). -/
def RawCell.isEmptyText : RawCell → Bool
  | .text s => s = ""
  | _ => false

/-- `pd.to_datetime(x, format='%Y-%m-%d %H:%M:%S')`, as a partial parse:
succeeds exactly on cells in the strict format. -/
def strictParse : RawCell → Option Date
  | .strictDate d => some d
  | _ => none

/-- `pd.to_datetime(x)` (general parsing): succeeds on every cell that
denotes a date at all. -/
def generalParse : RawCell → Option Date
  | .strictDate d => some d
  | .looseDate d => some d
  | _ => none

/-- `pd.to_datetime(col, errors='coerce')` on one cell: a date for parseable
text, `none` (NaT) for null or unparseable text.  Used by
`utils.apply_filters` (utils.py lines 676-678) and the specialized
aggregators. -/
def toDatetimeCoerce : RawCell → Option Date
  | .strictDate d => some d
  | .looseDate d => some d
  | _ => none

/-- The Date Normalizer `parse_date` (app.py lines 127-137): null/empty input
gives `None`; otherwise try the strict format, on failure general parsing, on
failure again return `None`.  Both `except:` arms are modelled by the
`Option` fall-through; the function is total, so no exception escapes. -/
def parse_date (c : RawCell) : Option Date :=
  if c.isNull || c.isEmptyText then none
  else
    match strictParse c with
    | some d => some d
    | none => generalParse c

/-- One row of the input table.  The first eight fields are the required
columns of `validate_data` (utils.py lines 85-89); the next five are the
values of the optional columns (meaningful only when the corresponding
presence flag of `Table` is set); the last three are the derived `*_parsed`
columns (meaningful only when `Table.hasParsedDateCols` is set). -/
structure Row where
  candidateId : String                    -- 求職者：求職者ID
  company : String                        -- 企業：企業名
  submission : RawCell                    -- 進捗：書類提出日
  interview : RawCell                     -- 進捗：面接日
  interviewRound : Option Int             -- 進捗：面接回数
  finalFlag : Option Int                  -- 進捗：最終面接フラグ
  offer : RawCell                         -- 進捗：内定日
  status : Option String                  -- 進捗：ステータス
  appApproval : RawCell := RawCell.null   -- 進捗：応募OK日
  jobId : Option String := none           -- 求人：求人ID
  meetingDate : RawCell := RawCell.null   -- 求職者：面談日
  caName : Option String := none          -- 求職者：担当者
  scoutName : Option String := none       -- スカウト担当者
  submissionParsed : Option Date := none  -- 書類提出日_parsed
  interviewParsed : Option Date := none   -- 面接日_parsed
  offerParsed : Option Date := none       -- 内定日_parsed
deriving DecidableEq, Repr

/-- The original CSV part of a row (everything except the three derived
`*_parsed` columns).  Used to state that an aggregator leaves the source
columns of the caller's table untouched. -/
structure SrcRow where
  candidateId : String
  company : String
  submission : RawCell
  interview : RawCell
  interviewRound : Option Int
  finalFlag : Option Int
  offer : RawCell
  status : Option String
  appApproval : RawCell
  jobId : Option String
  meetingDate : RawCell
  caName : Option String
  scoutName : Option String
deriving DecidableEq, Repr

/-- Projection of a row to its original CSV columns. -/
def Row.src (r : Row) : SrcRow :=
  ⟨r.candidateId, r.company, r.submission, r.interview, r.interviewRound,
   r.finalFlag, r.offer, r.status, r.appApproval, r.jobId, r.meetingDate,
   r.caName, r.scoutName⟩

/-- A DataFrame: rows plus presence flags for the optional columns and for
the derived `*_parsed` date columns. -/
structure Table where
  rows : List Row
  hasAppApproval : Bool := false
  hasJobId : Bool := false
  hasMeetingDate : Bool := false
  hasCA : Bool := false
  hasScout : Bool := false
  hasParsedDateCols : Bool := false
deriving DecidableEq, Repr

/-- Python exceptions that escape the aggregators. -/
inductive PyErr where
  | keyError (col : String)
  | valueError (msg : String)
deriving DecidableEq, Repr

/-- `pandas.unique` / first-occurrence deduplication (pandas `unique()`
preserves order of first appearance). -/
def uniqueKeep {α : Type} [DecidableEq α] : List α → List α
  | [] => []
  | x :: xs => x :: (uniqueKeep xs).filter (fun y => y ≠ x)

/-- `Series.nunique()` (the candidate-id and company columns are required,
hence never NaN in the model). -/
def nunique {α : Type} [DecidableEq α] (l : List α) : Nat :=
  (uniqueKeep l).length

/-- `round > 1` on a nullable integer column (NaN comparisons are False). -/
def optGT1 : Option Int → Bool
  | some n => decide (1 < n)
  | none => false

/-- `round >= 1` on a nullable integer column (NaN comparisons are False). -/
def optGE1 : Option Int → Bool
  | some n => decide (1 ≤ n)
  | none => false

/-- `month.split('-')` over the characters of a month token (Python `split`
on a single separator, keeping empty groups). -/
def splitOnDash (cs : List Char) : List (List Char) :=
  match cs with
  | [] => [[]]
  | c :: rest =>
    let r := splitOnDash rest
    if c = '-' then [] :: r
    else
      match r with
      | [] => [[c]]
      | g :: gs => (c :: g) :: gs

/-- Python `int(s)` on one group: an optional sign followed by at least one
decimal digit.  (Python's `int` additionally strips whitespace and allows
underscores between digits; those inputs do not occur in well-formed
`YYYY-M` month tokens and are not modelled.) -/
def pyInt? (cs : List Char) : Option Int :=
  let digits (ds : List Char) : Option Nat :=
    if ds.isEmpty then none
    else ds.foldlM (fun acc c => if c.isDigit then some (acc * 10 + (c.toNat - 48)) else none) 0
  match cs with
  | '-' :: rest => (digits rest).map (fun n => -(n : Int))
  | '+' :: rest => (digits rest).map (fun n => (n : Int))
  | _ => (digits cs).map (fun n => (n : Int))

/-- `year, month_num = month.split('-'); int(year), int(month_num)`
(utils.py lines 688-689 / app.py lines 158-159): a `ValueError` escapes when
the token does not split into exactly two parts or a part is not an
integer literal. -/
def monthTokenParse (tok : String) : Except PyErr (Int × Int) :=
  match splitOnDash tok.toList with
  | [y, m] =>
    match pyInt? y, pyInt? m with
    | some yi, some mi => .ok (yi, mi)
    | _, _ => .error (.valueError "invalid literal for int")
  | _ => .error (.valueError "unpacking month.split gave not exactly two values")

/-- Parse every selected month token, in order; the first malformed token
raises (the loop body of utils.py lines 687-689 / app.py lines 157-159). -/
def parseMonths : List String → Except PyErr (List (Int × Int))
  | [] => .ok []
  | tok :: rest => do
    let p ← monthTokenParse tok
    let ps ← parseMonths rest
    pure (p :: ps)

/-- `(df[col].dt.year == year) & (df[col].dt.month == month_num)` on one
parsed cell (NaT gives False). -/
def dateInMonth (od : Option Date) (ym : Int × Int) : Bool :=
  match od with
  | some d => d.year == ym.1 && d.month == ym.2
  | none => false

/-- A row passes the month filter when ANY of its three parsed lifecycle
dates falls in ANY selected (year, month) pair (utils.py lines 686-693 /
app.py lines 156-163). -/
def rowMatchesMonths (pairs : List (Int × Int)) (r : Row) : Bool :=
  pairs.any (fun ym =>
    [r.submissionParsed, r.interviewParsed, r.offerParsed].any (fun od => dateInMonth od ym))

/-- The (year, month) pairs present among a row's three lifecycle dates
(under the coercing parse the Filter Stage itself uses). -/
def rowMonthsOf (r : Row) : List (Int × Int) :=
  ([r.submission, r.interview, r.offer].filterMap toDatetimeCoerce).map
    (fun d => (d.year, d.month))

/-- Every distinct (year, month) value present in the table's month
dimension, in order of first appearance. -/
def distinctMonthPairs (t : Table) : List (Int × Int) :=
  uniqueKeep (t.rows.flatMap rowMonthsOf)

/-- Every distinct company name present in the table, in order of first
appearance. -/
def distinctCompanies (t : Table) : List String :=
  uniqueKeep (t.rows.map (·.company))

/-- The company filter (utils.py lines 681-682 / app.py lines 151-152):
active only when the selection is non-None, non-empty and does not contain
the sentinel `"全て"` (ALL). -/
def companyStep (selC : Option (List String)) (rows : List Row) : List Row :=
  match selC with
  | some l =>
    if !l.isEmpty && !(l.contains "全て") then rows.filter (fun r => l.contains r.company)
    else rows
  | none => rows

/-- The month filter (utils.py lines 685-695 / app.py lines 155-165): active
only when the selection is non-None, non-empty and does not contain the
sentinel; each selected token is parsed (raising on malformed tokens) and a
row is kept when any lifecycle date falls in any selected month. -/
def monthStep (selM : Option (List String)) (rows : List Row) : Except PyErr (List Row) :=
  match selM with
  | some l =>
    if !l.isEmpty && !(l.contains "全て") then do
      let pairs ← parseMonths l
      pure (rows.filter (rowMatchesMonths pairs))
    else pure rows
  | none => pure rows

/-- Adding the `*_parsed` columns with `pd.to_datetime(..., errors='coerce')`
to one row (utils.py lines 676-678, executed on the private copy). -/
def addCoercedRow (r : Row) : Row :=
  { r with
    submissionParsed := toDatetimeCoerce r.submission
    interviewParsed := toDatetimeCoerce r.interview
    offerParsed := toDatetimeCoerce r.offer }

/-- Adding the `*_parsed` columns with `parse_date` to one row
(app.py lines 146-148, executed in place on the caller's table). -/
def addParsedRow (r : Row) : Row :=
  { r with
    submissionParsed := parse_date r.submission
    interviewParsed := parse_date r.interview
    offerParsed := parse_date r.offer }

/-- The effect of app.py lines 146-148 on the whole table: the three
`*_parsed` columns are added (or overwritten). -/
def addParsedCols (t : Table) : Table :=
  { t with rows := t.rows.map addParsedRow, hasParsedDateCols := true }

/-- The Filter Stage `apply_filters` (utils.py lines 667-697).  Empty input
is returned unchanged; otherwise the function works on a copy
(`df = df.copy()`, line 675), adds the coerced `*_parsed` columns to the
copy, then applies the company filter and the month filter. -/
def apply_filters (t : Table) (selC selM : Option (List String)) : Except PyErr Table :=
  if t.rows.isEmpty then .ok t
  else
    (monthStep selM (companyStep selC (t.rows.map addCoercedRow))).map
      (fun rs => { t with rows := rs, hasParsedDateCols := true })

/-- One Company Metrics Row produced by `calculate_metrics`
(app.py lines 218-230).  Field names transliterate the Japanese dict keys:
企業名, 推薦人数, 書類提出数, 書類結果回収済, 書類通過率, 1次面接数,
1次面接通過率, 最終面接数, 内定数, 内定率, 平均処理時間. -/
structure MetricsRow where
  company : String
  recommendations : Nat
  submissions : Nat
  docResultsCollected : Nat
  docPassRate : ℚ
  firstInterviews : Nat
  firstPassRate : ℚ
  finalInterviews : Nat
  offers : Nat
  offerRate : ℚ
  avgCycleTime : Int
deriving DecidableEq, Repr

/-- The 1次面接数 count of the Per-Entity Metrics Aggregator (app.py lines
188-191): interview round exactly 1 AND a parsed interview date. -/
def firstInterviewCountMetrics (rows : List Row) : Nat :=
  rows.countP (fun r => (r.interviewRound == some 1) && r.interviewParsed.isSome)

/-- The 1次面接 stage count of the Funnel Aggregator (utils.py line 332):
interview round ≥ 1 AND a non-null raw interview cell. -/
def firstInterviewCountFunnel (rows : List Row) : Nat :=
  rows.countP (fun r => optGE1 r.interviewRound && !r.interview.isNull)

/-- Python `int(x)` on a float: truncation toward zero (on an exact rational
`num/den` with `den > 0`, that is T-division of numerator by denominator). -/
def truncToward0 (q : ℚ) : Int :=
  q.num.tdiv (q.den : Int)

/-- The day difference offer − submission of one row, when both parsed dates
are present (`(内定日_parsed - 書類提出日_parsed).dt.days`; a missing date
gives NaT, skipped by the subsequent skipna `mean()`). -/
def cycleDiffFn (r : Row) : Option Int :=
  match r.offerParsed, r.submissionParsed with
  | some o, some s => some (o.absDay - s.absDay)
  | _, _ => none

/-- The per-offer-row day differences of app.py line 215, NaT entries
dropped. -/
def cycleDiffs (rows : List Row) : List Int :=
  (rows.filter (fun r => r.offerParsed.isSome)).filterMap cycleDiffFn

/-- 平均処理時間 as app.py lines 211-216 compute it: over the offered rows,
if any offered row has a submission date, `int(mean of the day diffs)`
(NaN diffs skipped), else 0. -/
def avgCycleTimeCode (rows : List Row) : Int :=
  let offered := rows.filter (fun r => r.offerParsed.isSome)
  if !offered.isEmpty && offered.any (fun r => r.submissionParsed.isSome) then
    truncToward0 (((cycleDiffs rows).sum : ℚ) / ((cycleDiffs rows).length : ℚ))
  else 0

/-- Specification-side definition, from the spec's words (§3 Company Metrics
Row): "average cycle time in days (offer date − submission date, mean over
offered candidates only, truncated to integer days, 0 if no offered
candidates have a submission date)".  Stated independently of the code path,
to be compared with `avgCycleTimeCode`. -/
def avgCycleTimeSpec (rows : List Row) : Int :=
  let diffs := rows.filterMap cycleDiffFn
  if diffs.isEmpty then 0
  else truncToward0 ((diffs.sum : ℚ) / (diffs.length : ℚ))

/-- The Company Metrics Row for one company, given that company's rows with
the `*_parsed` columns present (app.py lines 175-230). -/
def metricsRowFor (c : String) (cd : List Row) : MetricsRow :=
  let recs := nunique (cd.map (·.candidateId))
  let subs := cd.countP (fun r => r.submissionParsed.isSome)
  let collected := cd.countP (fun r => r.submissionParsed.isSome && r.status.isSome)
  let interviews := cd.countP (fun r => r.interviewParsed.isSome)
  let docRate : ℚ := if subs > 0 then (interviews : ℚ) / (subs : ℚ) * 100 else 0
  let first := firstInterviewCountMetrics cd
  let firstPass := cd.countP
    (fun r => (optGT1 r.interviewRound || (r.finalFlag == some 1)) && r.interviewParsed.isSome)
  let firstRate : ℚ := if first > 0 then (firstPass : ℚ) / (first : ℚ) * 100 else 0
  let finals := cd.countP (fun r => (r.finalFlag == some 1) && r.interviewParsed.isSome)
  let offers := cd.countP (fun r => r.offerParsed.isSome)
  let offerRate : ℚ := if recs > 0 then (offers : ℚ) / (recs : ℚ) * 100 else 0
  ⟨c, recs, subs, collected, docRate, first, firstRate, finals, offers, offerRate,
   avgCycleTimeCode cd⟩

/-- One metrics row per company remaining after filtering, in order of first
appearance (`df['企業：企業名'].unique()`, app.py line 172); empty filtered
input gives an empty row set (app.py lines 167-168). -/
def metricsOf (rows : List Row) : List MetricsRow :=
  if rows.isEmpty then []
  else
    (uniqueKeep (rows.map (·.company))).map
      (fun c => metricsRowFor c (rows.filter (·.company == c)))

/-- The Per-Entity Metrics Aggregator `calculate_metrics`
(app.py lines 140-232).  Returns (result, caller-visible table after the
call): on non-empty input the function first assigns the three `*_parsed`
columns directly on its argument (lines 146-148, no copy), so the caller's
table is `addParsedCols t`; on empty input it returns before parsing and the
caller's table is untouched. -/
def calculate_metrics (t : Table) (selC selM : Option (List String)) :
    Except PyErr (List MetricsRow) × Table :=
  if t.rows.isEmpty then (.ok [], t)
  else
    let t' := addParsedCols t
    ((monthStep selM (companyStep selC t'.rows)).map metricsOf, t')

/-- The funnel stage counts, pre zero-drop (utils.py lines 328-336), as an
ordered association list with the source's Japanese stage names as keys. -/
def funnelCounts (rows : List Row) : List (String × Nat) :=
  [("推薦", nunique (rows.map (·.candidateId))),
   ("書類提出", rows.countP (fun r => !r.submission.isNull)),
   ("書類通過", rows.countP (fun r => !r.interview.isNull)),
   ("1次面接", firstInterviewCountFunnel rows),
   ("2次面接以降", rows.countP (fun r => optGT1 r.interviewRound && !r.interview.isNull)),
   ("最終面接", rows.countP (fun r => (r.finalFlag == some 1) && !r.interview.isNull)),
   ("内定", rows.countP (fun r => !r.offer.isNull))]

/-- Reading a count out of a stage-count association list (0 for an absent
key; every stage key is present in `funnelCounts`). -/
def lookupCount (cs : List (String × Nat)) (k : String) : Nat :=
  (cs.lookup k).getD 0

/-- The six adjacent stage pairs (utils.py lines 342-349). -/
def stagePairs : List (String × String) :=
  [("推薦", "書類提出"), ("書類提出", "書類通過"), ("書類通過", "1次面接"),
   ("1次面接", "2次面接以降"), ("2次面接以降", "最終面接"), ("最終面接", "内定")]

/-- The emission test of utils.py lines 351-353 for one adjacent stage pair:
if both stages are keys of the (pre-drop) funnel dict and the upstream count
is positive, emit the pass rate `to/from*100` under the key from→to. -/
def ratePair (cs : List (String × Nat)) (p : String × String) : Option (String × ℚ) :=
  match cs.lookup p.1, cs.lookup p.2 with
  | some cf, some ct =>
    if 0 < cf then some (p.1 ++ "→" ++ p.2, (ct : ℚ) / (cf : ℚ) * 100) else none
  | _, _ => none

/-- The stage-to-stage pass rates (utils.py lines 351-353), over the six
adjacent pairs. -/
def conversionRates (cs : List (String × Nat)) : List (String × ℚ) :=
  stagePairs.filterMap (ratePair cs)

/-- Result of the Funnel Aggregator: the zero-dropped stage counts and the
pass rates. -/
structure FunnelResult where
  funnel : List (String × Nat)
  conversion_rates : List (String × ℚ)
deriving DecidableEq, Repr

/-- The rows the Funnel Aggregator works on: the whole table, or one
company's rows when a (truthy) company name is given (utils.py lines
318-319). -/
def funnelInputRows (t : Table) (company : Option String) : List Row :=
  match company with
  | some c => if c = "" then t.rows else t.rows.filter (·.company == c)
  | none => t.rows

/-- The Funnel Aggregator `calculate_conversion_funnel`
(utils.py lines 314-361): stage counts, pass rates computed from the
pre-drop counts, then zero-count stages dropped from the emitted mapping
(line 356). -/
def calculate_conversion_funnel (t : Table) (company : Option String) : FunnelResult :=
  let rows := funnelInputRows t company
  if rows.isEmpty then ⟨[], []⟩
  else
    let cs := funnelCounts rows
    ⟨cs.filter (fun p => 0 < p.2), conversionRates cs⟩

/-- An alert of `generate_alerts`.  The human-readable `message` f-string is
presentation text and is not modelled. -/
structure Alert where
  etype : String
  title : String
  company : String
  priority : String
deriving DecidableEq, Repr

/-- `priority_order = {'high': 0, 'medium': 1, 'low': 2}`
(utils.py line 232); every alert built by `generate_alerts` uses one of the
three keys, so the (raising) dict lookup is total here and other strings are
mapped to 3. -/
def priorityRank (p : String) : Nat :=
  if p = "high" then 0 else if p = "medium" then 1 else if p = "low" then 2 else 3

/-- The data-anomaly alert record for one company (utils.py lines 222-229). -/
def anomalyAlert (c : String) : Alert :=
  ⟨"info", "📊 データ異常", c, "low"⟩

/-- The five alert rules of `generate_alerts` (utils.py lines 162-229), in
source order, before sorting: each rule iterates over the matching metrics
rows in row order and appends one alert per row. -/
def preAlerts (ms : List MetricsRow) : List Alert :=
  ((ms.filter (fun m => m.offerRate < 5)).map
      (fun m => ⟨"danger", "🚨 緊急: 極低内定率", m.company, "high"⟩)) ++
  ((ms.filter (fun m => 60 < m.avgCycleTime)).map
      (fun m => ⟨"warning", "⏰ 長期処理時間", m.company, "medium"⟩)) ++
  ((ms.filter (fun m => 5 < m.submissions && m.docPassRate < 10)).map
      (fun m => ⟨"warning", "📄 書類通過率低下", m.company, "medium"⟩)) ++
  ((ms.filter (fun m => 30 < m.offerRate && 2 < m.offers)).map
      (fun m => ⟨"success", "🎉 高パフォーマンス", m.company, "low"⟩)) ++
  ((ms.filter (fun m => 0 < m.submissions && m.submissions < m.firstInterviews)).map
      (fun m => anomalyAlert m.company))

/-- `alerts.sort(key=lambda x: priority_order[x['priority']])`
(utils.py line 233): Python's sort is stable, and on the three-valued key it
is exactly the concatenation of the three rank buckets in original order. -/
def sortByPriority (l : List Alert) : List Alert :=
  (l.filter (fun a => priorityRank a.priority == 0)) ++
  (l.filter (fun a => priorityRank a.priority == 1)) ++
  (l.filter (fun a => priorityRank a.priority == 2))

/-- `generate_alerts` (utils.py lines 153-235). -/
def generate_alerts (ms : List MetricsRow) : List Alert :=
  if ms.isEmpty then [] else sortByPriority (preAlerts ms)

/-- One row of the introduction→contract aggregation
(企業名, 紹介数, 成約数, 成約率). -/
structure ContractRow where
  company : String
  intros : Nat
  contracts : Nat
  contractRate : ℚ
deriving DecidableEq, Repr

/-- `calculate_company_introduction_to_contract_rate`
(utils.py lines 700-742).  After filtering, line 717 evaluates
`df['進捗：応募OK日']` unconditionally, so a `KeyError` is raised when that
optional column is absent — the presence check `if '進捗：応募OK日' in
df.columns` on line 724 only runs afterwards (and is then always true,
so its else-arm, line 730, is dead code). -/
def calculate_company_introduction_to_contract_rate (t : Table)
    (selC selM : Option (List String)) : Except PyErr (List ContractRow) :=
  if t.rows.isEmpty then .ok []
  else do
    let ft ← apply_filters t selC selM
    if ft.rows.isEmpty then .ok []
    else
      if !ft.hasAppApproval then throw (.keyError "進捗：応募OK日")
      else
        .ok ((uniqueKeep (ft.rows.map (·.company))).map (fun c =>
          let cd := ft.rows.filter (·.company == c)
          let introA := nunique
            ((cd.filter (fun r => (toDatetimeCoerce r.appApproval).isSome)).map (·.candidateId))
          let intro := if introA == 0 then nunique (cd.map (·.candidateId)) else introA
          let contracts := cd.countP (fun r => (toDatetimeCoerce r.offer).isSome)
          let rate : ℚ := if 0 < intro then (contracts : ℚ) / (intro : ℚ) * 100 else 0
          ⟨c, intro, contracts, rate⟩))

/-- One row of the per-job introduction→contract aggregation. -/
structure JobContractRow where
  jobId : String
  intros : Nat
  contracts : Nat
  contractRate : ℚ
deriving DecidableEq, Repr

/-- `calculate_job_introduction_to_contract_rate` (utils.py lines 745-792):
with a resolvable job-id column it groups by job id (and, like the company
variant, hits the unconditional `df['進捗：応募OK日']` on line 765 — a
`KeyError` when that column is absent); without one it falls back to the
company-level aggregation on the already-filtered table (line 792). -/
def calculate_job_introduction_to_contract_rate (t : Table)
    (selC selM : Option (List String)) :
    Except PyErr (List JobContractRow ⊕ List ContractRow) :=
  if t.rows.isEmpty then .ok (.inl [])
  else do
    let ft ← apply_filters t selC selM
    if ft.rows.isEmpty then .ok (.inl [])
    else
      if ft.hasJobId then
        if !ft.hasAppApproval then throw (.keyError "進捗：応募OK日")
        else
          .ok (.inl ((uniqueKeep (ft.rows.filterMap (·.jobId))).map (fun j =>
            let jd := ft.rows.filter (·.jobId == some j)
            let introA := nunique
              ((jd.filter (fun r => (toDatetimeCoerce r.appApproval).isSome)).map (·.candidateId))
            let intro := if introA == 0 then nunique (jd.map (·.candidateId)) else introA
            let contracts := jd.countP (fun r => (toDatetimeCoerce r.offer).isSome)
            let rate : ℚ := if 0 < intro then (contracts : ℚ) / (intro : ℚ) * 100 else 0
            ⟨j, intro, contracts, rate⟩)))
      else
        (calculate_company_introduction_to_contract_rate ft selC selM).map .inr

/-- Result of `calculate_avg_recommendations_per_candidate`
(utils.py lines 795-816). -/
structure AvgRecs where
  avgRecommendations : ℚ
  totalCandidates : Nat
  totalRecommendations : Nat
deriving DecidableEq, Repr

/-- `calculate_avg_recommendations_per_candidate` (utils.py lines 795-816):
total row count ÷ distinct candidate count; zeros on empty input. -/
def calculate_avg_recommendations_per_candidate (t : Table)
    (selC selM : Option (List String)) : Except PyErr AvgRecs :=
  if t.rows.isEmpty then .ok ⟨0, 0, 0⟩
  else do
    let ft ← apply_filters t selC selM
    if ft.rows.isEmpty then .ok ⟨0, 0, 0⟩
    else
      let tc := nunique (ft.rows.map (·.candidateId))
      let tr := ft.rows.length
      .ok ⟨if 0 < tc then (tr : ℚ) / (tc : ℚ) else 0, tc, tr⟩

/-- One row of the interview→recommendation lead-time aggregation
(企業名, 平均リードタイム, 件数). -/
structure LeadtimeRow where
  company : String
  avgLeadtime : ℚ
  count : Nat
deriving DecidableEq, Repr

/-- `calculate_interview_to_recommendation_leadtime`
(utils.py lines 819-865): requires resolving a meeting-date column by alias
search (modelled by the `hasMeetingDate` flag); lead time =
(submission date − meeting date) in days, per-company mean; an unresolvable
column or no row with both dates gives an empty result set. -/
def calculate_interview_to_recommendation_leadtime (t : Table)
    (selC selM : Option (List String)) : Except PyErr (List LeadtimeRow) :=
  if t.rows.isEmpty then .ok []
  else do
    let ft ← apply_filters t selC selM
    if ft.rows.isEmpty then .ok []
    else
      if ft.hasMeetingDate then
        let valid := ft.rows.filter (fun r =>
          (toDatetimeCoerce r.meetingDate).isSome && (toDatetimeCoerce r.submission).isSome)
        if valid.isEmpty then .ok []
        else
          .ok ((uniqueKeep (valid.map (·.company))).map (fun c =>
            let cd := valid.filter (·.company == c)
            let lts := cd.filterMap (fun r =>
              match toDatetimeCoerce r.submission, toDatetimeCoerce r.meetingDate with
              | some s, some m => some (s.absDay - m.absDay)
              | _, _ => none)
            ⟨c, (lts.sum : ℚ) / (lts.length : ℚ), cd.length⟩))
      else .ok []

/-- One row of the interviews-by-case-advisor aggregation
(CA名, 面談数, 担当企業数). -/
structure CARow where
  caName : String
  interviews : Nat
  companies : Nat
deriving DecidableEq, Repr

/-- `calculate_interviews_by_ca` (utils.py lines 868-912): requires
resolving a case-advisor column (modelled by `hasCA`); groups by advisor
(NaN advisors dropped, as pandas `groupby` does), counting distinct
candidates and distinct companies; restricted to rows with a parsed meeting
date when a meeting-date column resolves.  An unresolvable advisor column
gives an empty result set.  (pandas sorts the group keys; key order is not
relied on by any claim and first-appearance order is used here.) -/
def calculate_interviews_by_ca (t : Table)
    (selC selM : Option (List String)) : Except PyErr (List CARow) :=
  if t.rows.isEmpty then .ok []
  else do
    let ft ← apply_filters t selC selM
    if ft.rows.isEmpty then .ok []
    else
      if ft.hasCA then
        let valid :=
          if ft.hasMeetingDate then
            ft.rows.filter (fun r => (toDatetimeCoerce r.meetingDate).isSome)
          else ft.rows
        .ok ((uniqueKeep (valid.filterMap (·.caName))).map (fun ca =>
          let g := valid.filter (·.caName == some ca)
          ⟨ca, nunique (g.map (·.candidateId)), nunique (g.map (·.company))⟩))
      else .ok []

/-- One row of the scout-performance aggregation
(スカウター名, 紹介数, 書類提出数, 書類提出率, 成約数, 成約率). -/
structure ScoutRow where
  scoutName : String
  intros : Nat
  submissions : Nat
  submissionRate : ℚ
  contracts : Nat
  contractRate : ℚ
deriving DecidableEq, Repr

/-- `calculate_scouter_performance` (utils.py lines 915-962): requires
resolving a scout column (modelled by `hasScout`); per scout (NaN scouts
dropped), distinct-candidate referral count, raw submission count/rate and
contract count/rate.  An unresolvable scout column gives an empty result
set. -/
def calculate_scouter_performance (t : Table)
    (selC selM : Option (List String)) : Except PyErr (List ScoutRow) :=
  if t.rows.isEmpty then .ok []
  else do
    let ft ← apply_filters t selC selM
    if ft.rows.isEmpty then .ok []
    else
      if ft.hasScout then
        .ok ((uniqueKeep (ft.rows.filterMap (·.scoutName))).map (fun s =>
          let sd := ft.rows.filter (·.scoutName == some s)
          let intro := nunique (sd.map (·.candidateId))
          let contracts := sd.countP (fun r => (toDatetimeCoerce r.offer).isSome)
          let cRate : ℚ := if 0 < intro then (contracts : ℚ) / (intro : ℚ) * 100 else 0
          let subs := sd.countP (fun r => !r.submission.isNull)
          let sRate : ℚ := if 0 < intro then (subs : ℚ) / (intro : ℚ) * 100 else 0
          ⟨s, intro, subs, sRate, contracts, cRate⟩))
      else .ok []

/-- A row of the required columns with every nullable cell null; concrete
example rows override individual fields. -/
def row0 (cid comp : String) : Row :=
  { candidateId := cid, company := comp, submission := .null, interview := .null,
    interviewRound := none, finalFlag := none, offer := .null, status := none }

/-- Concrete table for C1: company A has one row with a submission and an
interview date and one row with an interview date but no submission
(1 submission, 2 interviews); company B has one row with a submission date
and no interview date. -/
def exTableC1 : Table :=
  { rows :=
      [{ row0 "c1" "A" with submission := .strictDate ⟨2024, 1, 10⟩,
                            interview := .strictDate ⟨2024, 1, 20⟩ },
       { row0 "c2" "A" with interview := .strictDate ⟨2024, 2, 40⟩ },
       { row0 "c3" "B" with submission := .strictDate ⟨2024, 1, 12⟩ }] }

/-- Concrete table for C1's witness: a single row. -/
def wTableC1 : Table := { rows := [row0 "c1" "A"] }

/-- Concrete table for C2: one row, all five optional columns absent. -/
def exTableC2 : Table := { rows := [row0 "c1" "A"] }

/-- Concrete empty table for C2. -/
def emptyTableC2 : Table := { rows := [] }

/-- Concrete table for C3: one row with a candidate id and no dates at all,
so the 推薦 stage counts 1 and every other stage counts 0. -/
def exTableC3 : Table := { rows := [row0 "c1" "A"] }

/-- Concrete table for C3's witness. -/
def wTableC3 : Table := { rows := [row0 "c9" "Z"] }

/-- Concrete table for C4: one row with a submission date in 2024-01 and one
row with no parseable date in any lifecycle column. -/
def exTableC4 : Table :=
  { rows :=
      [{ row0 "c1" "A" with submission := .strictDate ⟨2024, 1, 10⟩ },
       row0 "c2" "A"] }

/-- Concrete table for C4's witness: every row has a parseable lifecycle
date, all in 2024-01. -/
def wTableC4 : Table :=
  { rows :=
      [{ row0 "c1" "A" with submission := .strictDate ⟨2024, 1, 10⟩ },
       { row0 "c2" "B" with offer := .looseDate ⟨2024, 1, 25⟩ }] }

/-- Concrete table for C5: a single-row table (non-empty, so app.py lines
146-148 run and add the parsed columns to the caller's table). -/
def exTableC5 : Table := { rows := [row0 "c1" "A"] }

/-- Concrete empty table for C5's witness. -/
def emptyTableC5 : Table := { rows := [] }

/-- The 3-row Acme example of the spec (§8): one row with submission and
offer dates 5 days apart, one row with a submission date only, one row with
nothing, three distinct candidate ids. -/
def acmeTable : Table :=
  { rows :=
      [{ row0 "c1" "Acme" with submission := .strictDate ⟨2024, 1, 10⟩,
                               offer := .strictDate ⟨2024, 1, 15⟩ },
       { row0 "c2" "Acme" with submission := .strictDate ⟨2024, 1, 12⟩ },
       row0 "c3" "Acme"] }

/-- Concrete metrics row for C8: first-round interview count (1) exceeds the
submission count (0); its offer rate 0 < 5 triggers only the high-priority
rule. -/
def exRowC8 : MetricsRow := ⟨"A", 1, 0, 0, 0, 1, 0, 0, 0, 0, 0⟩

/-- Concrete table for C10's witness: a single row (the month loop only runs
on a non-empty table). -/
def wTableC10 : Table := { rows := [row0 "c1" "A"] }

end DashApp

deriving instance DecidableEq for Except

namespace DashApp

theorem exceptBind_ok {ε α β : Type} (a : α) (f : α → Except ε β) :
    (Except.ok a >>= f) = f a := rfl

theorem exceptBind_error {ε α β : Type} (e : ε) (f : α → Except ε β) :
    ((Except.error e : Except ε α) >>= f) = Except.error e := rfl

theorem exceptFunctorMap_ok {ε α β : Type} (f : α → β) (a : α) :
    (f <$> (Except.ok a : Except ε α)) = Except.ok (f a) := rfl

theorem exceptFunctorMap_error {ε α β : Type} (f : α → β) (e : ε) :
    (f <$> (Except.error e : Except ε α)) = Except.error e := rfl

theorem mem_uniqueKeep {α : Type} [DecidableEq α] (l : List α) (a : α) :
    a ∈ uniqueKeep l ↔ a ∈ l := by
  induction l with
  | nil => simp [uniqueKeep]
  | cons x xs ih =>
    simp only [uniqueKeep, List.mem_cons, List.mem_filter, ih, decide_eq_true_eq]
    constructor
    · rintro (rfl | ⟨h, _⟩)
      · exact .inl rfl
      · exact .inr h
    · rintro (rfl | h)
      · exact .inl rfl
      · by_cases hax : a = x
        · exact .inl hax
        · exact .inr ⟨h, hax⟩

theorem parseMonths_error_of_mem (months : List String) (tok : String) (e : PyErr)
    (htok : tok ∈ months) (he : monthTokenParse tok = .error e) :
    ∃ e2, parseMonths months = .error e2 := by
  induction months with
  | nil => cases htok
  | cons m ms ih =>
    rcases List.mem_cons.mp htok with rfl | hmem
    · exact ⟨e, by simp [parseMonths, he, exceptBind_error]⟩
    · cases hm : monthTokenParse m with
      | error e1 => exact ⟨e1, by simp [parseMonths, hm, exceptBind_error]⟩
      | ok p =>
        obtain ⟨e2, h2⟩ := ih hmem
        exact ⟨e2, by simp [parseMonths, hm, h2, exceptBind_ok, exceptBind_error,
          exceptFunctorMap_error]⟩

theorem parseMonths_ok_forall (months : List String) (ps : List (Int × Int))
    (h : parseMonths months = .ok ps) :
    ∀ tok ∈ months, ∃ p, monthTokenParse tok = .ok p := by
  induction months generalizing ps with
  | nil => intro tok htok; cases htok
  | cons m ms ih =>
    intro tok htok
    cases hm : monthTokenParse m with
    | error e1 => simp [parseMonths, hm, exceptBind_error] at h
    | ok p =>
      rcases List.mem_cons.mp htok with rfl | hmem
      · exact ⟨p, hm⟩
      · cases hms : parseMonths ms with
        | error e2 => simp [parseMonths, hm, hms, exceptBind_ok, exceptFunctorMap_error] at h
        | ok ps2 => exact ih ps2 hms tok hmem

theorem companyStep_subset (selC : Option (List String)) (rows : List Row) (r : Row)
    (h : r ∈ companyStep selC rows) : r ∈ rows := by
  cases selC with
  | none => exact h
  | some l =>
    simp only [companyStep] at h
    split at h
    · exact (List.mem_filter.mp h).1
    · exact h

theorem exceptMap_eq_ok {ε α β : Type} (f : α → β) (e : Except ε α) (b : β)
    (h : e.map f = .ok b) : ∃ a, e = .ok a ∧ b = f a := by
  cases e with
  | ok a =>
    refine ⟨a, rfl, ?_⟩
    simpa [Except.map] using h.symm
  | error e1 => simp [Except.map] at h

/-- C7: the Date Normalizer returns null for already-null or empty input,
attempts the strict format YYYY-MM-DD HH:MM:SS first, then general date
parsing, returns null when both fail, and — being a total function into
`Option Date` — never raises an exception. -/
theorem C7_parse_date_confirmed :
    parse_date RawCell.null = none ∧
    parse_date (RawCell.text "") = none ∧
    (∀ (c : RawCell) (d : Date), strictParse c = some d → parse_date c = some d) ∧
    (∀ c : RawCell, c.isNull = false → c.isEmptyText = false → strictParse c = none →
        parse_date c = generalParse c) ∧
    (∀ c : RawCell, strictParse c = none → generalParse c = none → parse_date c = none) := by
  refine ⟨rfl, rfl, ?_, ?_, ?_⟩
  · intro c d h
    cases c <;> simp_all [strictParse, parse_date, RawCell.isNull, RawCell.isEmptyText]
  · intro c h1 h2 h3
    cases c <;> simp_all [strictParse, generalParse, parse_date,
      RawCell.isNull, RawCell.isEmptyText]
  · intro c h1 h2
    cases c <;> simp_all [strictParse, generalParse, parse_date,
      RawCell.isNull, RawCell.isEmptyText]

/-- C7 witness: the theorem applied at concrete cells — a strict-format
date, a loosely-formatted date (general parsing after strict failure), and
unparseable text. -/
theorem C7_witness :
    parse_date (RawCell.strictDate ⟨2024, 1, 1⟩) = some ⟨2024, 1, 1⟩ ∧
    parse_date (RawCell.looseDate ⟨2024, 2, 32⟩) =
      generalParse (RawCell.looseDate ⟨2024, 2, 32⟩) ∧
    parse_date (RawCell.text "not a date") = none :=
  ⟨C7_parse_date_confirmed.2.2.1 _ _ (by decide),
   C7_parse_date_confirmed.2.2.2.1 _ (by decide) (by decide) (by decide),
   C7_parse_date_confirmed.2.2.2.2 _ (by decide) (by decide)⟩

/-- C9: the funnel's first-interview stage counts rows with interview round
≥ 1 and a non-null raw interview cell, the metrics aggregator's first-round
count requires round exactly 1 with a parsed interview date; over the same
rows the funnel count dominates.  The first two conjuncts anchor the two
counting functions to the Funnel Aggregator's stage-count table and to the
Company Metrics Row field. -/
theorem C9_first_interview_counts :
    (∀ rows : List Row,
        lookupCount (funnelCounts rows) "1次面接" = firstInterviewCountFunnel rows) ∧
    (∀ (c : String) (cd : List Row),
        (metricsRowFor c cd).firstInterviews = firstInterviewCountMetrics cd) ∧
    (∀ rows : List Row,
        firstInterviewCountMetrics (rows.map addParsedRow) ≤ firstInterviewCountFunnel rows) := by
  refine ⟨fun rows => rfl, fun c cd => rfl, fun rows => ?_⟩
  rw [firstInterviewCountMetrics, firstInterviewCountFunnel, List.countP_map]
  apply List.countP_mono_left
  intro r _ h
  simp only [Function.comp, Bool.and_eq_true, beq_iff_eq, Option.isSome_iff_exists] at h
  obtain ⟨hround, d, hd⟩ := h
  have hnotnull : r.interview.isNull = false := by
    have : (addParsedRow r).interviewParsed = parse_date r.interview := rfl
    rw [this] at hd
    cases hc : r.interview <;> simp_all [parse_date, strictParse, generalParse,
      RawCell.isNull, RawCell.isEmptyText]
  have hround2 : r.interviewRound = some 1 := hround
  simp [optGE1, hround2, hnotnull]

theorem monthStep_error (selM : List String) (rows : List Row) (tok : String) (e : PyErr)
    (htok : tok ∈ selM) (he : monthTokenParse tok = .error e)
    (hall : selM.contains "全て" = false) :
    ∃ e2, monthStep (some selM) rows = .error e2 := by
  obtain ⟨e2, h2⟩ := parseMonths_error_of_mem selM tok e htok he
  have hne : selM.isEmpty = false := by
    cases selM
    · cases htok
    · rfl
  have hcond : (!selM.isEmpty && !selM.contains "全て") = true := by
    rw [hne, hall]
    rfl
  refine ⟨e2, ?_⟩
  simp only [monthStep, hcond, if_true]
  rw [h2]
  rfl

/-- C10: a month selection without the ALL sentinel that contains a token
not of the form integer-integer makes both the Filter Stage and
calculate_metrics raise (a ValueError escapes from token unpacking or the
int conversion) on any non-empty table, instead of ignoring the token. -/
theorem C10_malformed_month_token_raises
    (t : Table) (selC : Option (List String)) (months : List String)
    (tok : String) (e : PyErr)
    (hne : t.rows ≠ []) (htok : tok ∈ months) (he : monthTokenParse tok = .error e)
    (hall : months.contains "全て" = false) :
    (∃ e1, apply_filters t selC (some months) = .error e1) ∧
    (∃ e2, (calculate_metrics t selC (some months)).1 = .error e2) := by
  have hemp : t.rows.isEmpty = false := List.isEmpty_eq_false.mpr hne
  constructor
  · obtain ⟨e1, h1⟩ := monthStep_error months (companyStep selC (t.rows.map addCoercedRow))
      tok e htok he hall
    exact ⟨e1, by simp [apply_filters, hemp, h1, Except.map]⟩
  · obtain ⟨e1, h1⟩ := monthStep_error months (companyStep selC (addParsedCols t).rows)
      tok e htok he hall
    exact ⟨e1, by simp [calculate_metrics, hemp, h1, Except.map]⟩

/-- C10 witness: the theorem applied to a concrete one-row table with the
malformed tokens 2024 (no dash) and 2024-Jan (non-integer part). -/
theorem C10_witness :
    ((∃ e1, apply_filters wTableC10 none (some ["2024"]) = .error e1) ∧
     (∃ e2, (calculate_metrics wTableC10 none (some ["2024"])).1 = .error e2)) ∧
    ((∃ e1, apply_filters wTableC10 none (some ["2024-Jan"]) = .error e1) ∧
     (∃ e2, (calculate_metrics wTableC10 none (some ["2024-Jan"])).1 = .error e2)) :=
  ⟨C10_malformed_month_token_raises wTableC10 none ["2024"] "2024"
      (.valueError "unpacking month.split gave not exactly two values")
      (by decide) (by decide) (by decide) (by decide),
   C10_malformed_month_token_raises wTableC10 none ["2024-Jan"] "2024-Jan"
      (.valueError "invalid literal for int")
      (by decide) (by decide) (by decide) (by decide)⟩

theorem metricsRowFor_rate_bounds (c : String) (cd : List Row) :
    (0 ≤ (metricsRowFor c cd).docPassRate ∧
      ((metricsRowFor c cd).submissions = 0 → (metricsRowFor c cd).docPassRate = 0)) ∧
    (0 ≤ (metricsRowFor c cd).firstPassRate ∧
      ((metricsRowFor c cd).firstInterviews = 0 → (metricsRowFor c cd).firstPassRate = 0)) ∧
    (0 ≤ (metricsRowFor c cd).offerRate ∧
      ((metricsRowFor c cd).recommendations = 0 → (metricsRowFor c cd).offerRate = 0)) := by
  simp only [metricsRowFor]
  refine ⟨⟨?_, ?_⟩, ⟨?_, ?_⟩, ⟨?_, ?_⟩⟩
  · split
    · positivity
    · exact le_refl 0
  · intro h
    simp [h]
  · split
    · positivity
    · exact le_refl 0
  · intro h
    simp [h]
  · split
    · positivity
    · exact le_refl 0
  · intro h
    simp [h]

theorem mem_metricsOf (rows : List Row) (m : MetricsRow) (h : m ∈ metricsOf rows) :
    ∃ c cd, m = metricsRowFor c cd := by
  simp only [metricsOf] at h
  split at h
  · cases h
  · obtain ⟨c, _, rfl⟩ := List.mem_map.mp h
    exact ⟨c, _, rfl⟩

theorem calculate_metrics_ok (t : Table) (selC selM : Option (List String))
    (res : List MetricsRow) (h : (calculate_metrics t selC selM).1 = .ok res)
    (m : MetricsRow) (hm : m ∈ res) : ∃ c cd, m = metricsRowFor c cd := by
  by_cases hemp : t.rows.isEmpty
  · simp only [calculate_metrics, hemp, if_true] at h
    obtain rfl : ([] : List MetricsRow) = res := Except.ok.inj h
    cases hm
  · simp only [calculate_metrics, hemp, if_false, Bool.false_eq_true] at h
    obtain ⟨rows2, _, rfl⟩ := exceptMap_eq_ok metricsOf _ res h
    exact mem_metricsOf rows2 m hm

/-- C1 (amended): every rate field of a Company Metrics Row is a
non-negative rational (in particular finite and not NaN) and equals 0
whenever its denominator field is 0; the rates are not bounded by 100, and
a rate can also be 0 with a positive denominator (see the
counterexample). -/
theorem C1_rate_fields_amended (t : Table) (selC selM : Option (List String))
    (res : List MetricsRow) (h : (calculate_metrics t selC selM).1 = .ok res) :
    ∀ m ∈ res,
      (0 ≤ m.docPassRate ∧ (m.submissions = 0 → m.docPassRate = 0)) ∧
      (0 ≤ m.firstPassRate ∧ (m.firstInterviews = 0 → m.firstPassRate = 0)) ∧
      (0 ≤ m.offerRate ∧ (m.recommendations = 0 → m.offerRate = 0)) := by
  intro m hm
  obtain ⟨c, cd, rfl⟩ := calculate_metrics_ok t selC selM res h m hm
  exact metricsRowFor_rate_bounds c cd

/-- C1 counterexample: on a concrete table, company A's document pass rate
is 200 (outside [0,100]: an interview date does not require a submission
date), and company B's document pass rate is 0 although its denominator
(submission count) is 1 — refuting both the [0,100] bound and the
"0 exactly when the denominator is 0" reading. -/
theorem C1_counterexample :
    (calculate_metrics exTableC1 none none).1.map (fun l => l.map (·.docPassRate)) =
      .ok [200, 0] ∧
    (calculate_metrics exTableC1 none none).1.map (fun l => l.map (·.submissions)) =
      .ok [1, 1] := by
  constructor
  · with_unfolding_all decide
  · decide

/-- C1 witness: the amended theorem applied to a concrete one-row table. -/
theorem C1_witness :
    (0 ≤ (⟨"A", 1, 0, 0, 0, 0, 0, 0, 0, 0, 0⟩ : MetricsRow).docPassRate ∧
      ((⟨"A", 1, 0, 0, 0, 0, 0, 0, 0, 0, 0⟩ : MetricsRow).submissions = 0 →
        (⟨"A", 1, 0, 0, 0, 0, 0, 0, 0, 0, 0⟩ : MetricsRow).docPassRate = 0)) ∧
    (0 ≤ (⟨"A", 1, 0, 0, 0, 0, 0, 0, 0, 0, 0⟩ : MetricsRow).firstPassRate ∧
      ((⟨"A", 1, 0, 0, 0, 0, 0, 0, 0, 0, 0⟩ : MetricsRow).firstInterviews = 0 →
        (⟨"A", 1, 0, 0, 0, 0, 0, 0, 0, 0, 0⟩ : MetricsRow).firstPassRate = 0)) ∧
    (0 ≤ (⟨"A", 1, 0, 0, 0, 0, 0, 0, 0, 0, 0⟩ : MetricsRow).offerRate ∧
      ((⟨"A", 1, 0, 0, 0, 0, 0, 0, 0, 0, 0⟩ : MetricsRow).recommendations = 0 →
        (⟨"A", 1, 0, 0, 0, 0, 0, 0, 0, 0, 0⟩ : MetricsRow).offerRate = 0)) :=
  C1_rate_fields_amended wTableC1 none none [⟨"A", 1, 0, 0, 0, 0, 0, 0, 0, 0, 0⟩]
    (by with_unfolding_all decide) _ (List.mem_singleton_self _)

/-- C2: the code contradicts the uniform graceful-degradation contract.
The introduction→contract aggregators evaluate the optional 応募OK日 column
unconditionally (utils.py line 717 / 765) before their own presence check
(line 724), so on a non-empty table without that column they raise KeyError
instead of returning an empty result; the three alias-resolved aggregators
(lead time, by-CA, scout) and the empty-input paths do return empty
results. -/
theorem C2_missing_column_behaviour :
    calculate_company_introduction_to_contract_rate exTableC2 none none =
      .error (.keyError "進捗：応募OK日") ∧
    calculate_job_introduction_to_contract_rate exTableC2 none none =
      .error (.keyError "進捗：応募OK日") ∧
    calculate_interview_to_recommendation_leadtime exTableC2 none none = .ok [] ∧
    calculate_interviews_by_ca exTableC2 none none = .ok [] ∧
    calculate_scouter_performance exTableC2 none none = .ok [] ∧
    calculate_avg_recommendations_per_candidate emptyTableC2 none none = .ok ⟨0, 0, 0⟩ ∧
    calculate_company_introduction_to_contract_rate emptyTableC2 none none = .ok [] := by
  refine ⟨?_, ?_, ?_, ?_, ?_, ?_, ?_⟩ <;> decide

/-- C5 counterexample: calculate_metrics changes the caller's table on a
concrete non-empty input (app.py lines 146-148 assign the three parsed-date
columns on the argument itself, without a copy). -/
theorem C5_counterexample : (calculate_metrics exTableC5 none none).2 ≠ exTableC5 := by
  decide

/-- C5 (amended): calculate_metrics mutates its input only by adding (or
overwriting) the three parsed-date columns: every original CSV column keeps
its values row by row, the optional-column set is unchanged, and an empty
input table is returned untouched.  apply_filters and the specialized
aggregators built on it work on a private copy (utils.py line 675) and are
embedded as pure functions of the caller's table. -/
theorem C5_mutation_amended (t : Table) (selC selM : Option (List String)) :
    ((calculate_metrics t selC selM).2.rows.map Row.src = t.rows.map Row.src) ∧
    (calculate_metrics t selC selM).2.hasAppApproval = t.hasAppApproval ∧
    (calculate_metrics t selC selM).2.hasJobId = t.hasJobId ∧
    (calculate_metrics t selC selM).2.hasMeetingDate = t.hasMeetingDate ∧
    (calculate_metrics t selC selM).2.hasCA = t.hasCA ∧
    (calculate_metrics t selC selM).2.hasScout = t.hasScout ∧
    (t.rows.isEmpty = true → (calculate_metrics t selC selM).2 = t) := by
  by_cases hemp : t.rows.isEmpty
  · simp [calculate_metrics, hemp]
  · have hsrc : ∀ r : Row, (addParsedRow r).src = r.src := fun r => rfl
    simp [calculate_metrics, hemp, addParsedCols, List.map_map, Function.comp, hsrc]

/-- C5 witness: the amended theorem applied to a concrete empty table (whose
untouched-return conjunct has a hypothesis) and to a concrete non-empty
table. -/
theorem C5_witness :
    (calculate_metrics emptyTableC5 none none).2 = emptyTableC5 ∧
    (calculate_metrics exTableC5 none none).2.rows.map Row.src =
      exTableC5.rows.map Row.src :=
  ⟨(C5_mutation_amended emptyTableC5 none none).2.2.2.2.2.2 (by decide),
   (C5_mutation_amended exTableC5 none none).1⟩

theorem cycleDiffs_eq_filterMap (rows : List Row) :
    cycleDiffs rows = rows.filterMap cycleDiffFn := by
  induction rows with
  | nil => rfl
  | cons r rs ih =>
    simp only [cycleDiffs, List.filter_cons] at *
    cases h : r.offerParsed with
    | none =>
      have hfn : cycleDiffFn r = none := by simp [cycleDiffFn, h]
      simp [h, List.filterMap_cons, hfn, ih]
    | some o =>
      have hoff : r.offerParsed.isSome = true := by simp [h]
      cases hfn : cycleDiffFn r <;> simp [hoff, List.filterMap_cons, hfn, ih]

theorem cycle_guard_iff (rows : List Row) :
    (rows.filter (fun r => r.offerParsed.isSome) ≠ [] ∧
      (rows.filter (fun r => r.offerParsed.isSome)).any
        (fun r => r.submissionParsed.isSome) = true)
      ↔ rows.filterMap cycleDiffFn ≠ [] := by
  constructor
  · rintro ⟨-, hany⟩
    obtain ⟨r, hrmem, hsub⟩ := List.any_eq_true.mp hany
    have hoff := (List.mem_filter.mp hrmem).2
    intro hnil
    have hall := List.filterMap_eq_nil_iff.mp hnil r (List.mem_filter.mp hrmem).1
    obtain ⟨o, ho⟩ := Option.isSome_iff_exists.mp hoff
    obtain ⟨s, hs⟩ := Option.isSome_iff_exists.mp hsub
    simp [cycleDiffFn, ho, hs] at hall
  · intro hne
    obtain ⟨b, hb⟩ := List.exists_mem_of_ne_nil _ hne
    obtain ⟨r, hr, hfn⟩ := List.mem_filterMap.mp hb
    have hoff : r.offerParsed.isSome = true := by
      cases ho : r.offerParsed
      · simp [cycleDiffFn, ho] at hfn
      · rfl
    have hsub : r.submissionParsed.isSome = true := by
      cases hs : r.submissionParsed
      · obtain ⟨o, ho⟩ := Option.isSome_iff_exists.mp hoff
        simp [cycleDiffFn, ho, hs] at hfn
      · rfl
    constructor
    · exact List.ne_nil_of_mem (List.mem_filter.mpr ⟨hr, hoff⟩)
    · exact List.any_eq_true.mpr ⟨r, List.mem_filter.mpr ⟨hr, hoff⟩, hsub⟩

theorem cycle_guard_eq (rows : List Row) :
    (!(rows.filter (fun r => r.offerParsed.isSome)).isEmpty &&
      (rows.filter (fun r => r.offerParsed.isSome)).any
        (fun r => r.submissionParsed.isSome)) =
    !(rows.filterMap cycleDiffFn).isEmpty := by
  rw [Bool.eq_iff_iff]
  simp only [Bool.and_eq_true, Bool.not_eq_true', List.isEmpty_eq_false]
  exact cycle_guard_iff rows

/-- C6: the average cycle time of calculate_metrics equals the
specification's description (mean of offer-minus-submission day differences
over offered candidates with a submission date, truncated toward zero, 0
when there are none), and on the spec's concrete 3-row Acme table the
aggregator yields recommendations=3, submissions=2, offers=1, average cycle
time=5 and offer rate 100/3 percent — whose one-decimal display is 33.3
(the last conjunct: truncating 10 times the rate gives 333). -/
theorem C6_cycle_time_confirmed :
    (∀ rows : List Row, avgCycleTimeCode rows = avgCycleTimeSpec rows) ∧
    (calculate_metrics acmeTable none none).1.map (fun l => l.map (fun m =>
        (m.company, m.recommendations, m.submissions, m.offers, m.avgCycleTime))) =
      .ok [("Acme", 3, 2, 1, 5)] ∧
    (calculate_metrics acmeTable none none).1.map (fun l => l.map (·.offerRate)) =
      .ok [100 / 3] ∧
    truncToward0 ((100 : ℚ) / 3 * 10) = 333 := by
  refine ⟨?_, ?_, ?_, ?_⟩
  · intro rows
    simp only [avgCycleTimeCode, avgCycleTimeSpec, cycleDiffs_eq_filterMap, cycle_guard_eq]
    cases h : (rows.filterMap cycleDiffFn).isEmpty <;> simp [h]
  · with_unfolding_all decide
  · with_unfolding_all decide
  · with_unfolding_all decide

theorem rank_le_two_of_mem_preAlerts (ms : List MetricsRow) (a : Alert)
    (h : a ∈ preAlerts ms) : priorityRank a.priority ≤ 2 := by
  simp only [preAlerts, List.mem_append, List.mem_map, or_assoc] at h
  rcases h with (⟨m, _, rfl⟩ | ⟨m, _, rfl⟩ | ⟨m, _, rfl⟩ | ⟨m, _, rfl⟩ | ⟨m, _, rfl⟩) <;>
    simp [priorityRank, anomalyAlert]

theorem mem_sortByPriority (l : List Alert) (a : Alert) :
    a ∈ sortByPriority l ↔ a ∈ l ∧ priorityRank a.priority ≤ 2 := by
  simp only [sortByPriority, List.mem_append, List.mem_filter, beq_iff_eq, or_assoc]
  constructor
  · rintro (⟨h, hr⟩ | ⟨h, hr⟩ | ⟨h, hr⟩) <;> exact ⟨h, by omega⟩
  · rintro ⟨h, hr⟩
    have h3 : priorityRank a.priority = 0 ∨ priorityRank a.priority = 1 ∨
        priorityRank a.priority = 2 := by omega
    rcases h3 with h3 | h3 | h3
    · exact .inl ⟨h, h3⟩
    · exact .inr (.inl ⟨h, h3⟩)
    · exact .inr (.inr ⟨h, h3⟩)

theorem anomaly_mem_preAlerts (ms : List MetricsRow) (c : String) :
    anomalyAlert c ∈ preAlerts ms ↔
      ∃ m ∈ ms, m.company = c ∧ 0 < m.submissions ∧
        m.submissions < m.firstInterviews := by
  simp only [preAlerts, List.mem_append, List.mem_map, List.mem_filter, or_assoc,
    Bool.and_eq_true, decide_eq_true_eq]
  constructor
  · rintro (⟨m, _, heq⟩ | ⟨m, _, heq⟩ | ⟨m, _, heq⟩ | ⟨m, _, heq⟩ |
      ⟨m, ⟨hm, h1, h2⟩, heq⟩)
    · have h' : ("danger" : String) = "info" := congrArg Alert.etype heq
      exact absurd h' (by decide)
    · have h' : ("warning" : String) = "info" := congrArg Alert.etype heq
      exact absurd h' (by decide)
    · have h' : ("warning" : String) = "info" := congrArg Alert.etype heq
      exact absurd h' (by decide)
    · have h' : ("success" : String) = "info" := congrArg Alert.etype heq
      exact absurd h' (by decide)
    · have h' : m.company = c := congrArg Alert.company heq
      exact ⟨m, hm, h', h1, h2⟩
  · rintro ⟨m, hm, hc, h1, h2⟩
    refine .inr (.inr (.inr (.inr ⟨m, ⟨hm, h1, h2⟩, ?_⟩)))
    rw [hc]

/-- C8 (amended): generate_alerts emits the low-priority data-anomaly alert
for a company exactly when one of its metrics rows has a POSITIVE submission
count strictly below its first-round interview count (the code additionally
requires 書類提出数 > 0, so a row with 0 submissions and a positive
first-round count gets no alert — see the counterexample); the output is
ordered by priority rank (high 0, medium 1, low 2) and the sort is stable:
for every rank the output restricted to that rank equals the rule-order
alert list restricted to that rank. -/
theorem C8_alerts_amended (ms : List MetricsRow) :
    (∀ c : String, anomalyAlert c ∈ generate_alerts ms ↔
        ∃ m ∈ ms, m.company = c ∧ 0 < m.submissions ∧
          m.submissions < m.firstInterviews) ∧
    (generate_alerts ms).Pairwise
      (fun a b => priorityRank a.priority ≤ priorityRank b.priority) ∧
    (∀ k : Nat, (generate_alerts ms).filter (fun a => priorityRank a.priority == k) =
        (preAlerts ms).filter (fun a => priorityRank a.priority == k)) := by
  cases hemp : ms.isEmpty with
  | true =>
    have hms : ms = [] := List.isEmpty_iff.mp hemp
    subst hms
    refine ⟨?_, ?_, ?_⟩
    · intro c
      simp [generate_alerts, preAlerts]
    · simp [generate_alerts]
    · intro k
      simp [generate_alerts, preAlerts]
  | false =>
    have hgen : generate_alerts ms = sortByPriority (preAlerts ms) := by
      simp [generate_alerts, hemp]
    have hrank2 : priorityRank (anomalyAlert "x").priority = 2 := by
      simp [anomalyAlert, priorityRank]
    refine ⟨?_, ?_, ?_⟩
    · intro c
      rw [hgen, mem_sortByPriority]
      have : priorityRank (anomalyAlert c).priority = 2 := by
        simp [anomalyAlert, priorityRank]
      rw [anomaly_mem_preAlerts]
      constructor
      · rintro ⟨h, -⟩
        exact h
      · intro h
        exact ⟨h, by omega⟩
    · rw [hgen]
      have hmemrank : ∀ (k : Nat) (a : Alert),
          a ∈ (preAlerts ms).filter (fun x => priorityRank x.priority == k) →
          priorityRank a.priority = k := by
        intro k a ha
        have h2 := (List.mem_filter.mp ha).2
        simpa using h2
      simp only [sortByPriority]
      refine List.pairwise_append.mpr ⟨?_, ?_, ?_⟩
      · refine List.pairwise_append.mpr ⟨?_, ?_, ?_⟩
        · exact List.pairwise_of_forall_mem_list (fun a ha b hb => by
            rw [hmemrank 0 a ha, hmemrank 0 b hb])
        · exact List.pairwise_of_forall_mem_list (fun a ha b hb => by
            rw [hmemrank 1 a ha, hmemrank 1 b hb])
        · intro a ha b hb
          rw [hmemrank 0 a ha, hmemrank 1 b hb]
          omega
      · exact List.pairwise_of_forall_mem_list (fun a ha b hb => by
          rw [hmemrank 2 a ha, hmemrank 2 b hb])
      · intro a ha b hb
        rcases List.mem_append.mp ha with h0 | h1
        · rw [hmemrank 0 a h0, hmemrank 2 b hb]
          omega
        · rw [hmemrank 1 a h1, hmemrank 2 b hb]
          omega
    · intro k
      rw [hgen]
      have hsplit : ∀ j : Nat, k ≠ j →
          (preAlerts ms).filter
            (fun a => (priorityRank a.priority == k) && (priorityRank a.priority == j)) =
            [] := by
        intro j hkj
        apply List.filter_eq_nil_iff.mpr
        intro a _
        simp only [Bool.and_eq_true, beq_iff_eq, not_and]
        intro h1 h2
        omega
      have hsame :
          (preAlerts ms).filter
            (fun a => (priorityRank a.priority == k) && (priorityRank a.priority == k)) =
          (preAlerts ms).filter (fun a => priorityRank a.priority == k) := by
        apply List.filter_congr
        intro a _
        exact Bool.and_self _
      simp only [sortByPriority, List.filter_append, List.filter_filter]
      by_cases hk0 : k = 0
      · subst hk0
        rw [hsame, hsplit 1 (by omega), hsplit 2 (by omega)]
        simp
      · by_cases hk1 : k = 1
        · subst hk1
          rw [hsame, hsplit 0 (by omega), hsplit 2 (by omega)]
          simp
        · by_cases hk2 : k = 2
          · subst hk2
            rw [hsame, hsplit 0 (by omega), hsplit 1 (by omega)]
            simp
          · have hnil : (preAlerts ms).filter
                (fun a => priorityRank a.priority == k) = [] := by
              apply List.filter_eq_nil_iff.mpr
              intro a ha
              have hle := rank_le_two_of_mem_preAlerts ms a ha
              simp only [beq_iff_eq]
              omega
            rw [hsplit 0 hk0, hsplit 1 hk1, hsplit 2 hk2, hnil]
            simp

/-- C8 counterexample: a metrics row with first-round interview count 1 and
submission count 0 satisfies the claim's condition (first-round count
exceeds submissions) but generate_alerts emits no data-anomaly alert for it
(the code also requires a positive submission count). -/
theorem C8_counterexample :
    exRowC8.submissions < exRowC8.firstInterviews ∧
    anomalyAlert "A" ∉ generate_alerts [exRowC8] := by
  with_unfolding_all decide

theorem ratePair_some_name (cs : List (String × Nat)) (p : String × String)
    (q : String × ℚ) (h : ratePair cs p = some q) : q.1 = p.1 ++ "→" ++ p.2 := by
  simp only [ratePair] at h
  split at h
  · split at h
    · cases h
      rfl
    · cases h
  · cases h

theorem lookup_rates_notmem (cs : List (String × Nat)) (ps : List (String × String))
    (k : String) (hk : ∀ p ∈ ps, ¬ k = p.1 ++ "→" ++ p.2) :
    (ps.filterMap (ratePair cs)).lookup k = none := by
  induction ps with
  | nil => rfl
  | cons p ps ih =>
    have hp := hk p (List.mem_cons_self p ps)
    have hps : ∀ q ∈ ps, ¬ k = q.1 ++ "→" ++ q.2 :=
      fun q hq => hk q (List.mem_cons_of_mem p hq)
    simp only [List.filterMap_cons]
    cases hr : ratePair cs p with
    | none => exact ih hps
    | some q =>
      have hq1 := ratePair_some_name cs p q hr
      obtain ⟨qn, qv⟩ := q
      have hqn : qn = p.1 ++ "→" ++ p.2 := hq1
      have hbeq : (k == qn) = false := beq_eq_false_iff_ne.mpr (by rw [hqn]; exact hp)
      simp only [List.lookup_cons, hbeq]
      exact ih hps

theorem lookup_rates_mem (cs : List (String × Nat)) (ps : List (String × String))
    (fs ts : String) (hmem : (fs, ts) ∈ ps)
    (hnd : (ps.map (fun p => p.1 ++ "→" ++ p.2)).Nodup) :
    (ps.filterMap (ratePair cs)).lookup (fs ++ "→" ++ ts) =
      (match cs.lookup fs, cs.lookup ts with
        | some cf, some ct => if 0 < cf then some ((ct : ℚ) / (cf : ℚ) * 100) else none
        | _, _ => none) := by
  induction ps with
  | nil => cases hmem
  | cons p ps ih =>
    obtain ⟨hnd1, hnd2⟩ := List.nodup_cons.mp hnd
    rcases List.mem_cons.mp hmem with heq | hmem2
    · subst heq
      have hnd1' : (fs ++ "→" ++ ts) ∉ ps.map (fun q => q.1 ++ "→" ++ q.2) := by
        simpa using hnd1
      have hk : ∀ q ∈ ps, ¬ (fs ++ "→" ++ ts) = q.1 ++ "→" ++ q.2 := by
        intro q hq hkeq
        exact hnd1' (by rw [hkeq]; exact List.mem_map_of_mem _ hq)
      simp only [List.filterMap_cons]
      cases hf : cs.lookup fs with
      | none =>
        have hr : ratePair cs (fs, ts) = none := by
          simp [ratePair, hf]
        simp only [hr]
        rw [lookup_rates_notmem cs ps _ hk]
      | some cf =>
        cases ht : cs.lookup ts with
        | none =>
          have hr : ratePair cs (fs, ts) = none := by
            simp [ratePair, hf, ht]
          simp only [hr]
          rw [lookup_rates_notmem cs ps _ hk]
        | some ct =>
          by_cases hcf : 0 < cf
          · have hr : ratePair cs (fs, ts) =
                some (fs ++ "→" ++ ts, (ct : ℚ) / (cf : ℚ) * 100) := by
              simp [ratePair, hf, ht, hcf]
            simp only [hr]
            simp [List.lookup_cons, hcf]
          · have hr : ratePair cs (fs, ts) = none := by
              simp [ratePair, hf, ht, hcf]
            simp only [hr]
            rw [lookup_rates_notmem cs ps _ hk]
            simp [hcf]
    · have hnd1' : (p.1 ++ "→" ++ p.2) ∉ ps.map (fun q => q.1 ++ "→" ++ q.2) := by
        simpa using hnd1
      have hmm : (fs ++ "→" ++ ts) ∈ ps.map (fun q => q.1 ++ "→" ++ q.2) :=
        List.mem_map.mpr ⟨(fs, ts), hmem2, rfl⟩
      have hne : ((fs ++ "→" ++ ts) == p.1 ++ "→" ++ p.2) = false :=
        beq_eq_false_iff_ne.mpr (fun h => hnd1' (by rw [← h]; exact hmm))
      simp only [List.filterMap_cons]
      cases hr : ratePair cs p with
      | none => exact ih hmem2 hnd2
      | some q =>
        have hq1 := ratePair_some_name cs p q hr
        obtain ⟨qn, qv⟩ := q
        have hqn : qn = p.1 ++ "→" ++ p.2 := hq1
        have hbeq : ((fs ++ "→" ++ ts) == qn) = false := by
          rw [hqn]
          exact hne
        simp only [List.lookup_cons, hbeq]
        exact ih hmem2 hnd2

/-- C3 (amended): for every table and company selection with at least one
row left, a pass rate for an adjacent stage pair is emitted if and only if
the UPSTREAM stage count in the pre-drop stage counts is nonzero (the
downstream stage may well be zero — see the counterexample), and its value
divides the downstream count by the pre-drop upstream count.  Stated as one
lookup equation: the emitted map at the pair's key equals the rate exactly
when the upstream pre-drop count is positive, and is absent otherwise. -/
theorem C3_pass_rates_amended (t : Table) (comp : Option String) (fs ts : String)
    (hne : funnelInputRows t comp ≠ [])
    (hmem : (fs, ts) ∈ stagePairs) :
    (calculate_conversion_funnel t comp).conversion_rates.lookup (fs ++ "→" ++ ts) =
      (if 0 < lookupCount (funnelCounts (funnelInputRows t comp)) fs then
        some ((lookupCount (funnelCounts (funnelInputRows t comp)) ts : ℚ) /
              (lookupCount (funnelCounts (funnelInputRows t comp)) fs : ℚ) * 100)
      else none) := by
  have hisE : (funnelInputRows t comp).isEmpty = false := List.isEmpty_eq_false.mpr hne
  simp only [calculate_conversion_funnel, hisE, Bool.false_eq_true, if_false,
    conversionRates]
  rw [lookup_rates_mem (funnelCounts (funnelInputRows t comp)) stagePairs fs ts hmem
    (by decide)]
  simp only [stagePairs, List.mem_cons, List.mem_singleton, Prod.mk.injEq,
    List.not_mem_nil, or_false] at hmem
  rcases hmem with ⟨rfl, rfl⟩ | ⟨rfl, rfl⟩ | ⟨rfl, rfl⟩ | ⟨rfl, rfl⟩ | ⟨rfl, rfl⟩ |
    ⟨rfl, rfl⟩ <;>
    simp [funnelCounts, List.lookup_cons, lookupCount]

/-- C3 counterexample: on a concrete one-row table with no dates, the pass
rate 推薦→書類提出 IS emitted (value 0) although the downstream stage
書類提出 has count 0 in the pre-drop stage counts — refuting the claimed
"only if both stages of the pair have nonzero count". -/
theorem C3_counterexample :
    ((calculate_conversion_funnel exTableC3 none).conversion_rates.map Prod.fst) =
      ["推薦→書類提出"] ∧
    (funnelCounts exTableC3.rows).lookup "書類提出" = some 0 := by
  constructor <;> decide

/-- C3 witness: the amended theorem applied to a concrete one-row table and
the first stage pair. -/
theorem C3_witness :
    (calculate_conversion_funnel wTableC3 none).conversion_rates.lookup "推薦→書類提出" =
      (if 0 < lookupCount (funnelCounts (funnelInputRows wTableC3 none)) "推薦" then
        some ((lookupCount (funnelCounts (funnelInputRows wTableC3 none)) "書類提出" : ℚ) /
              (lookupCount (funnelCounts (funnelInputRows wTableC3 none)) "推薦" : ℚ) * 100)
      else none) :=
  C3_pass_rates_amended wTableC3 none "推薦" "書類提出" (by decide) (by decide)

theorem distinctCompanies_contains (t : Table) (r0 : Row) (h : r0 ∈ t.rows) :
    (distinctCompanies t).contains r0.company = true :=
  List.elem_iff.mpr ((mem_uniqueKeep _ _).mpr (List.mem_map_of_mem _ h))

theorem rowMatches_distinctMonths (t : Table) (r0 : Row) (hr0 : r0 ∈ t.rows)
    (hm : rowMonthsOf r0 ≠ []) :
    rowMatchesMonths (distinctMonthPairs t) (addCoercedRow r0) = true := by
  obtain ⟨ym, hym⟩ := List.exists_mem_of_ne_nil _ hm
  have hymd : ym ∈ distinctMonthPairs t :=
    (mem_uniqueKeep _ _).mpr (List.mem_flatMap.mpr ⟨r0, hr0, hym⟩)
  simp only [rowMonthsOf, List.mem_map] at hym
  obtain ⟨d, hd, rfl⟩ := hym
  simp only [List.mem_filterMap] at hd
  obtain ⟨raw, hraw, hcoerce⟩ := hd
  simp only [rowMatchesMonths]
  apply List.any_eq_true.mpr
  refine ⟨(d.year, d.month), hymd, ?_⟩
  apply List.any_eq_true.mpr
  refine ⟨some d, ?_, by simp [dateInMonth]⟩
  simp only [addCoercedRow]
  simp only [List.mem_cons, List.not_mem_nil, or_false] at hraw
  rcases hraw with rfl | rfl | rfl
  · exact hcoerce ▸ List.mem_cons_self _ _
  · exact List.mem_cons_of_mem _ (hcoerce ▸ List.mem_cons_self _ _)
  · exact List.mem_cons_of_mem _ (List.mem_cons_of_mem _ (hcoerce ▸ List.mem_cons_self _ _))

/-- C4 (amended): selecting the ALL sentinel for the COMPANY dimension is
equivalent to selecting every distinct company present.  For the MONTH
dimension the same equivalence holds only on tables in which every row has
at least one parseable lifecycle date: a row with none is kept by ALL but
dropped by the explicit list of every distinct month present (see the
counterexample).  The explicit month list is any token list that parses to
exactly the distinct (year, month) pairs of the table. -/
theorem C4_all_sentinel_amended :
    (∀ (t : Table) (m : Option (List String)) (lAll : List String), "全て" ∈ lAll →
        apply_filters t (some lAll) m = apply_filters t (some (distinctCompanies t)) m) ∧
    (∀ (t : Table) (c : Option (List String)) (lAll toks : List String), "全て" ∈ lAll →
        parseMonths toks = .ok (distinctMonthPairs t) →
        (∀ r ∈ t.rows, rowMonthsOf r ≠ []) →
        apply_filters t c (some lAll) = apply_filters t c (some toks)) := by
  constructor
  · intro t m lAll hAll
    cases hemp : t.rows.isEmpty with
    | true => simp [apply_filters, hemp]
    | false =>
      simp only [apply_filters, hemp, Bool.false_eq_true, if_false]
      have hallc : lAll.contains "全て" = true := List.elem_iff.mpr hAll
      have hcomp : companyStep (some lAll) (t.rows.map addCoercedRow) =
          companyStep (some (distinctCompanies t)) (t.rows.map addCoercedRow) := by
        simp only [companyStep, hallc, Bool.not_true, Bool.and_false, Bool.false_eq_true,
          if_false]
        by_cases hD : (distinctCompanies t).contains "全て" = true
        · have hD2 : "全て" ∈ distinctCompanies t := List.elem_iff.mp hD
          simp [hD2]
        · have hDne : (distinctCompanies t).isEmpty = false := by
            cases hr : t.rows with
            | nil => rw [hr] at hemp; cases hemp
            | cons a as => simp [distinctCompanies, hr, uniqueKeep]
          simp only [hDne, Bool.not_false, eq_self_iff_true, Bool.not_eq_true] at hD ⊢
          rw [hD]
          simp only [Bool.not_false, Bool.and_self, if_true]
          symm
          apply List.filter_eq_self.mpr
          intro r1 hr1
          obtain ⟨r0, hr0, rfl⟩ := List.mem_map.mp hr1
          exact distinctCompanies_contains t r0 hr0
      rw [hcomp]
  · intro t c lAll toks hAll hparse hrows
    cases hemp : t.rows.isEmpty with
    | true => simp [apply_filters, hemp]
    | false =>
      simp only [apply_filters, hemp, Bool.false_eq_true, if_false]
      have hallc : lAll.contains "全て" = true := List.elem_iff.mpr hAll
      have hAllToks : toks.contains "全て" = false := by
        cases hc : toks.contains "全て" with
        | false => rfl
        | true =>
          have hmem : "全て" ∈ toks := List.elem_iff.mp hc
          obtain ⟨p, hp⟩ := parseMonths_ok_forall toks _ hparse "全て" hmem
          rw [show monthTokenParse "全て" =
            Except.error (.valueError "unpacking month.split gave not exactly two values")
            from by decide] at hp
          cases hp
      have htoksne : toks.isEmpty = false := by
        cases htk : toks with
        | nil =>
          rw [htk] at hparse
          have hd : distinctMonthPairs t = [] :=
            (Except.ok.inj hparse).symm
          have hne2 : t.rows ≠ [] := by simpa [List.isEmpty_eq_false] using hemp
          obtain ⟨r, hr⟩ := List.exists_mem_of_ne_nil _ hne2
          obtain ⟨ym, hym⟩ := List.exists_mem_of_ne_nil _ (hrows r hr)
          have hmd : ym ∈ distinctMonthPairs t :=
            (mem_uniqueKeep _ _).mpr (List.mem_flatMap.mpr ⟨r, hr, hym⟩)
          rw [hd] at hmd
          cases hmd
        | cons a as => rfl
      have hcondAll : (!lAll.isEmpty && !lAll.contains "全て") = false := by
        rw [hallc]
        simp
      have hcondT : (!toks.isEmpty && !toks.contains "全て") = true := by
        rw [htoksne, hAllToks]
        rfl
      have hmonth : monthStep (some lAll) (companyStep c (t.rows.map addCoercedRow)) =
          monthStep (some toks) (companyStep c (t.rows.map addCoercedRow)) := by
        simp only [monthStep, hcondAll, hcondT, Bool.false_eq_true, if_false, if_true]
        rw [hparse]
        simp only [exceptBind_ok]
        have hfil : (companyStep c (t.rows.map addCoercedRow)).filter
            (rowMatchesMonths (distinctMonthPairs t)) =
            companyStep c (t.rows.map addCoercedRow) := by
          apply List.filter_eq_self.mpr
          intro r1 hr1
          obtain ⟨r0, hr0, rfl⟩ :=
            List.mem_map.mp (companyStep_subset c _ r1 hr1)
          exact rowMatches_distinctMonths t r0 hr0 (hrows r0 hr0)
        rw [hfil]
      rw [hmonth]

/-- C4 counterexample: a table with one row dated 2024-01 and one row with
no parseable lifecycle dates: filtering with months = [ALL] keeps both rows
while filtering with the explicit list of every distinct month present
(exactly "2024-1", second conjunct) drops the dateless row, so the two
results differ. -/
theorem C4_counterexample :
    apply_filters exTableC4 none (some ["全て"]) ≠
      apply_filters exTableC4 none (some ["2024-1"]) ∧
    parseMonths ["2024-1"] = .ok (distinctMonthPairs exTableC4) := by
  constructor <;> decide

/-- C4 witness: both conjuncts of the amended theorem applied to a concrete
table whose every row carries a 2024-01 lifecycle date. -/
theorem C4_witness :
    apply_filters wTableC4 (some ["全て"]) none =
      apply_filters wTableC4 (some (distinctCompanies wTableC4)) none ∧
    apply_filters wTableC4 none (some ["全て"]) =
      apply_filters wTableC4 none (some ["2024-1"]) :=
  ⟨C4_all_sentinel_amended.1 wTableC4 none ["全て"] (by decide),
   C4_all_sentinel_amended.2 wTableC4 none ["全て"] ["2024-1"] (by decide) (by decide)
     (by decide)⟩

end DashApp
